import Mathlib

/-!
Shallow embedding of `src/src/firewall/core/io/helper.py` (firewalld Helper
configuration records): the `Helper` record model, the SAX-driven reader
(`helper_reader` / `helper_ContentHandler`) and the writer (`helper_writer`).

External collaborators of helper.py that are part of the repository but not
under `src/` (firewall.core.io.io_object, firewall.config, firewall.functions)
are modelled from the specification, each marked `Modelled from the spec:` in
its doc comment.  File-system effects (os / shutil / open) are represented by
an explicit effect model: the reader takes a map from file names to parse
outcomes and reports which files it opened; the writer takes a small
file-system oracle and returns the trace of file-system steps it performed
together with the emitted document text.
-/

namespace Firewalld

/-- Python str.endswith, over the character sequence (byte-position-based
core string functions do not evaluate inside proofs). -/
def endswith (s suffx : String) : Bool :=
  suffx.data.isSuffixOf s.data

/-- Python str.startswith, over the character sequence. -/
def startswith (s pre : String) : Bool :=
  pre.data.isPrefixOf s.data

/-- Python s[:-4], over the character sequence. -/
def dropLast4 (s : String) : String :=
  String.mk (s.data.take (s.data.length - 4))

/-- Python int() on a non-empty all-digit character sequence. -/
def digitsToNat? (cs : List Char) : Option Nat :=
  if cs ≠ [] ∧ cs.all Char.isDigit then
    some (cs.foldl (fun n c => n * 10 + (c.toNat - 48)) 0)
  else none

/-- Splitting a character sequence at every occurrence of a separator. -/
def splitOnChar (sep : Char) : List Char → List (List Char)
  | [] => [[]]
  | c :: cs =>
    match splitOnChar sep cs with
    | r :: rs => if c = sep then [] :: r :: rs else (c :: r) :: rs
    | [] => [[]]

/-- Error codes from `firewall.errors` used by helper.py (plus the generic
parser codes used by the attribute-shape check). -/
inductive ErrorCode where
  | INVALID_NAME
  | INVALID_IPV
  | INVALID_PORT
  | INVALID_PROTOCOL
  | INVALID_HELPER
  | INVALID_TAG
  | PARSE_ERROR
  deriving DecidableEq, Repr

/-- A `FirewallError(code, msg)` exception value. -/
structure FirewallError where
  code : ErrorCode
  msg : String
  deriving DecidableEq, Repr

/-- The Helper record: fields set by `Helper.__init__` (version, short,
description, family, ports) together with the bookkeeping fields inherited
from `IO_Object` that helper_reader assigns (name, path, filename, builtin,
default). -/
structure Helper where
  name : String := ""
  path : String := ""
  filename : String := ""
  builtin : Bool := true
  default : Bool := false
  version : String := ""
  short : String := ""
  description : String := ""
  family : String := ""
  ports : List (String × String) := []
  deriving DecidableEq, Repr

/-- A freshly constructed record, as `Helper()` builds it. -/
def Helper.init : Helper := {}

/-- `Helper.cleanup` (helper.py lines 66-71): clears version, short,
description, family and empties ports, touching nothing else. -/
def Helper.cleanup (h : Helper) : Helper :=
  { h with version := "", short := "", description := "", family := "",
           ports := [] }

/-- `Helper._check_ipv` (helper.py lines 83-87): raises
`FirewallError(INVALID_IPV, ...)` unless the value is `ipv4` or `ipv6`. -/
def Helper.check_ipv (ipv : String) : Except FirewallError Unit :=
  if ipv = "ipv4" ∨ ipv = "ipv6" then Except.ok ()
  else Except.error ⟨ErrorCode.INVALID_IPV,
    "'" ++ ipv ++ "' not in '['ipv4', 'ipv6']'"⟩

/-- `Helper.ADDITIONAL_ALNUM_CHARS` (helper.py line 47). -/
def ADDITIONAL_ALNUM_CHARS : List Char := ['_', '-']

/-- Modelled from the spec: `validate_identity(name)` / `IO_Object.check_name`
(firewall.core.io.io_object, not under src/): fails with `InvalidName` if the
name is empty or contains characters outside alphanumerics plus the record
class's additional characters `_` and `-`. -/
def check_name (name : String) : Except FirewallError Unit :=
  if name = "" then
    Except.error ⟨ErrorCode.INVALID_NAME, "empty name"⟩
  else if name.data.all
      (fun c => c.isAlphanum || ADDITIONAL_ALNUM_CHARS.contains c) then
    Except.ok ()
  else
    Except.error ⟨ErrorCode.INVALID_NAME,
      "name contains invalid characters: " ++ name⟩

/-- Decides whether a character sequence is a plain decimal port number
in 1..65535. -/
def isPortNum (cs : List Char) : Bool :=
  match digitsToNat? cs with
  | some n => decide (1 ≤ n) && decide (n ≤ 65535)
  | none => false

/-- Modelled from the spec: the external predicate `check_port(spec)`
(firewall.functions, not under src/): the value must be a valid port number
or a numeric range of two such numbers, failing with `InvalidPort`
otherwise. -/
def check_port (po : String) : Except FirewallError Unit :=
  let ok :=
    match splitOnChar '-' po.data with
    | [a] => isPortNum a
    | [a, b] => isPortNum a && isPortNum b
    | _ => false
  if ok then Except.ok ()
  else Except.error ⟨ErrorCode.INVALID_PORT, po⟩

/-- Modelled from the spec: the external predicate `check_tcpudp(proto)`
(firewall.functions, not under src/): the value must be one of the recognized
transport protocols, failing with `InvalidProtocol` otherwise. -/
def check_tcpudp (proto : String) : Except FirewallError Unit :=
  if proto = "tcp" ∨ proto = "udp" ∨ proto = "sctp" ∨ proto = "dccp" then
    Except.ok ()
  else Except.error ⟨ErrorCode.INVALID_PROTOCOL, proto⟩

/-- Modelled from the spec: `ETC_FIREWALLD` (firewall.config, not under
src/), the user-writable configuration root. -/
def ETC_FIREWALLD : String := "/etc/firewalld"

/-- `Helper.PARSER_REQUIRED_ELEMENT_ATTRS` (helper.py lines 48-52):
which element names are known, and which attributes each requires
(`none` = no required attributes). -/
def PARSER_REQUIRED_ELEMENT_ATTRS : List (String × Option (List String)) :=
  [("short", none), ("description", none), ("helper", none)]

/-- `Helper.PARSER_OPTIONAL_ELEMENT_ATTRS` (helper.py lines 53-56). -/
def PARSER_OPTIONAL_ELEMENT_ATTRS : List (String × List String) :=
  [("helper", ["name", "version", "family"]), ("port", ["port", "protocol"])]

/-- The attribute names the parser accepts on a given element, derived from
the two declarations above. -/
def allowedAttrs (ename : String) : List String :=
  ((PARSER_REQUIRED_ELEMENT_ATTRS.lookup ename).getD none).getD [] ++
    (PARSER_OPTIONAL_ELEMENT_ATTRS.lookup ename).getD []

/-- Modelled from the spec: `IO_Object.parser_check_element_attrs`
(firewall.core.io.io_object, not under src/): for each opened element,
the element name must be declared (otherwise an invalid-tag failure),
every attribute declared required must be present (otherwise a parse
failure), and only recognized attributes may be present (an unrecognized
attribute is a parse failure). -/
def parser_check_element_attrs (ename : String)
    (attrs : List (String × String)) : Except FirewallError Unit :=
  if (PARSER_REQUIRED_ELEMENT_ATTRS.lookup ename).isNone &&
      (PARSER_OPTIONAL_ELEMENT_ATTRS.lookup ename).isNone then
    Except.error ⟨ErrorCode.INVALID_TAG, "Unexpected element " ++ ename⟩
  else if (((PARSER_REQUIRED_ELEMENT_ATTRS.lookup ename).getD none).getD
      []).all (fun x => attrs.any (fun kv => kv.1 = x)) then
    if attrs.all (fun kv => kv.1 ∈ allowedAttrs ename) then
      Except.ok ()
    else
      Except.error ⟨ErrorCode.PARSE_ERROR,
        "Unexpected attribute on " ++ ename⟩
  else
    Except.error ⟨ErrorCode.PARSE_ERROR,
      "Missing required attribute on " ++ ename⟩

/-- SAX traversal events delivered to the content handler by the consumed
structured-document parser. -/
inductive SaxEvent where
  | startElement (name : String) (attrs : List (String × String))
  | endElement (name : String)
  | characters (s : String)
  deriving DecidableEq, Repr

/-- State of `helper_ContentHandler`: the record under construction
(`self.item`) and the text accumulator of the generic
`IO_Object_ContentHandler` base class. -/
structure HandlerState where
  item : Helper
  elementText : String
  deriving DecidableEq, Repr

/-- `helper_ContentHandler.startElement` (helper.py lines 98-119).  The
base-class call on line 99 resets the text accumulator (the base class
is not under src/; modelled from the spec: text content is accumulated
separately by the generic traversal, per element).  A `port` element whose
`port` or `protocol` attribute is absent would raise a `KeyError` in
Python on lines 112-114; that is modelled as a parse-error failure. -/
def helper_startElement (st0 : HandlerState) (ename : String)
    (attrs : List (String × String)) : Except FirewallError HandlerState :=
  let st : HandlerState := { st0 with elementText := "" }
  match parser_check_element_attrs ename attrs with
  | Except.error e => Except.error e
  | Except.ok _ =>
    if ename = "helper" then
      let st1 :=
        match attrs.lookup "version" with
        | some v => { st with item := { st.item with version := v } }
        | none => st
      match attrs.lookup "family" with
      | some fam =>
        match Helper.check_ipv fam with
        | Except.error e => Except.error e
        | Except.ok _ =>
          Except.ok { st1 with item := { st1.item with family := fam } }
      | none => Except.ok st1
    else if ename = "short" then Except.ok st
    else if ename = "description" then Except.ok st
    else if ename = "port" then
      match attrs.lookup "port", attrs.lookup "protocol" with
      | some po, some pr =>
        match check_port po with
        | Except.error e => Except.error e
        | Except.ok _ =>
          match check_tcpudp pr with
          | Except.error e => Except.error e
          | Except.ok _ =>
            if (po, pr) ∈ st.item.ports then Except.ok st
            else Except.ok { st with item :=
              { st.item with ports := st.item.ports ++ [(po, pr)] } }
      | _, _ =>
        Except.error ⟨ErrorCode.PARSE_ERROR,
          "missing port or protocol attribute"⟩
    else Except.ok st

/-- Modelled from the spec: the generic traversal accumulates text content
(`IO_Object_ContentHandler.characters`, not under src/). -/
def helper_characters (st : HandlerState) (s : String) : HandlerState :=
  { st with elementText := st.elementText ++ s }

/-- Modelled from the spec: the accumulated text content of a `short` or
`description` element becomes the corresponding field when the element
closes (`IO_Object_ContentHandler.endElement`, not under src/;
helper_ContentHandler adds no endElement handling of its own). -/
def helper_endElement (st : HandlerState) (ename : String) : HandlerState :=
  if ename = "short" then
    { st with item := { st.item with short := st.elementText } }
  else if ename = "description" then
    { st with item := { st.item with description := st.elementText } }
  else st

/-- Dispatch of one SAX event to the content handler. -/
def handleEvent (st : HandlerState) :
    SaxEvent → Except FirewallError HandlerState
  | SaxEvent.startElement n a => helper_startElement st n a
  | SaxEvent.characters s => Except.ok (helper_characters st s)
  | SaxEvent.endElement n => Except.ok (helper_endElement st n)

/-- The parser feeding the event stream to the handler; a handler failure
aborts the traversal and propagates. -/
def processEvents (st : HandlerState) :
    List SaxEvent → Except FirewallError HandlerState
  | [] => Except.ok st
  | e :: rest =>
    match handleEvent st e with
    | Except.ok st2 => processEvents st2 rest
    | Except.error err => Except.error err

/-- Outcome of opening-and-parsing a file via the consumed document parser:
the file may be absent (open raises an OS error), malformed (the parser
raises a SAXParseException carrying a message), or well-formed, yielding a
stream of traversal events. -/
inductive ParseOutcome where
  | missing
  | saxError (msg : String)
  | events (evs : List SaxEvent)

/-- A failure of `helper_reader`: a `FirewallError`, or the OS error that
propagates from `open` when the file is absent. -/
inductive ReadFailure where
  | fw (e : FirewallError)
  | osError (name : String)
  deriving DecidableEq, Repr

/-- Result of `helper_reader`: the returned record or the failure, together
with the list of file names the reader opened, in order. -/
structure ReadResult where
  result : Except ReadFailure Helper
  opened : List String

/-- The record state helper_reader has built just before opening the file
(helper.py lines 126-131): name from the filename without suffix, the
filename and path, and the origin flags computed from the path. -/
def readerInitHelper (filename path : String) : Helper :=
  { Helper.init with
    name := dropLast4 filename,
    filename := filename,
    path := path,
    builtin := !(startswith path ETC_FIREWALLD),
    default := !(startswith path ETC_FIREWALLD) }

/-- `helper_reader` (helper.py lines 121-147) over the file-system model
`fs`, a map from full file names to parse outcomes: check the `.xml`
suffix (INVALID_NAME failure before any open), derive and validate the
name, record path / filename / builtin / default, then open and traverse
`path/filename`, wrapping structural parse failures as `INVALID_HELPER`. -/
def helper_reader (filename path : String) (fs : String → ParseOutcome) :
    ReadResult :=
  if ¬ endswith filename ".xml" then
    { result := Except.error (ReadFailure.fw ⟨ErrorCode.INVALID_NAME,
        "'" ++ filename ++ "' is missing .xml suffix"⟩),
      opened := [] }
  else
    match check_name (dropLast4 filename) with
    | Except.error e =>
      { result := Except.error (ReadFailure.fw e), opened := [] }
    | Except.ok _ =>
      match fs (path ++ "/" ++ filename) with
      | ParseOutcome.missing =>
        { result := Except.error
            (ReadFailure.osError (path ++ "/" ++ filename)),
          opened := [path ++ "/" ++ filename] }
      | ParseOutcome.saxError m =>
        { result := Except.error (ReadFailure.fw ⟨ErrorCode.INVALID_HELPER,
            "not a valid helper file: " ++ m⟩),
          opened := [path ++ "/" ++ filename] }
      | ParseOutcome.events evs =>
        match processEvents ⟨readerInitHelper filename path, ""⟩ evs with
        | Except.ok st =>
          { result := Except.ok st.item,
            opened := [path ++ "/" ++ filename] }
        | Except.error e =>
          { result := Except.error (ReadFailure.fw e),
            opened := [path ++ "/" ++ filename] }

/-- Calls made by `helper_writer` on the document-emission service
`IO_Object_XMLGenerator` between startDocument and endDocument. -/
inductive XmlEvent where
  | startElement (name : String) (attrs : List (String × String))
  | endElement (name : String)
  | characters (s : String)
  | ignorableWhitespace (s : String)
  | simpleElement (name : String) (attrs : List (String × String))
  deriving DecidableEq, Repr

/-- The emission calls of `helper_writer` (helper.py lines 171-207), in
order: the helper root element with its version attribute and then its
family attribute (each present only when the field is non-empty, mirroring
Python string truthiness), a newline, the optional short and description
elements, one self-closing port element per stored pair in stored order,
and the closing helper element followed by a newline. -/
def helper_writer_events (h : Helper) : List XmlEvent :=
  let attrs :=
    (if h.version ≠ "" then [("version", h.version)] else []) ++
      (if h.family ≠ "" then [("family", h.family)] else [])
  [XmlEvent.startElement "helper" attrs, XmlEvent.ignorableWhitespace "\n"] ++
    (if h.short ≠ "" then
      [XmlEvent.ignorableWhitespace "  ", XmlEvent.startElement "short" [],
       XmlEvent.characters h.short, XmlEvent.endElement "short",
       XmlEvent.ignorableWhitespace "\n"]
    else []) ++
    (if h.description ≠ "" then
      [XmlEvent.ignorableWhitespace "  ",
       XmlEvent.startElement "description" [],
       XmlEvent.characters h.description, XmlEvent.endElement "description",
       XmlEvent.ignorableWhitespace "\n"]
    else []) ++
    (h.ports.map (fun port =>
      [XmlEvent.ignorableWhitespace "  ",
       XmlEvent.simpleElement "port" [("port", port.1), ("protocol", port.2)],
       XmlEvent.ignorableWhitespace "\n"])).flatten ++
    [XmlEvent.endElement "helper", XmlEvent.ignorableWhitespace "\n"]

/-- Modelled from the spec: attribute rendering by the document-emission
service — a space, the key, an equals sign and the double-quoted value for
each attribute, in the given order. -/
def renderAttrs : List (String × String) → String
  | [] => ""
  | (k, v) :: rest => " " ++ k ++ "=\"" ++ v ++ "\"" ++ renderAttrs rest

/-- Modelled from the spec: the text produced for one emission call by the
document-emission service (`IO_Object_XMLGenerator`, not under src/):
elements with their attributes, raw text, and whitespace insertion. -/
def renderEvent : XmlEvent → String
  | XmlEvent.startElement n a => "<" ++ n ++ renderAttrs a ++ ">"
  | XmlEvent.endElement n => "</" ++ n ++ ">"
  | XmlEvent.characters s => s
  | XmlEvent.ignorableWhitespace s => s
  | XmlEvent.simpleElement n a => "<" ++ n ++ renderAttrs a ++ "/>"

/-- Modelled from the spec: the document header line that startDocument
emits (wire format of §6). -/
def xmlHeader : String := "<?xml version=\"1.0\" ?>\n"

/-- Concatenation of the rendered emission calls. -/
def renderEvents : List XmlEvent → String
  | [] => ""
  | e :: rest => renderEvent e ++ renderEvents rest

/-- The full document text that helper_writer emits for a record. -/
def helper_writer_doc (h : Helper) : String :=
  xmlHeader ++ renderEvents (helper_writer_events h)

/-- File-system oracle for the writer: which paths exist, whether the
backup copy (shutil.copy2) raises, and which mkdir calls raise. -/
structure FSModel where
  fileExists : String → Bool
  copyFails : Bool
  mkdirFails : String → Bool

/-- One observable file-system step performed by helper_writer. -/
inductive WriteStep where
  | backupCopy (src dst : String)
  | backupFailLogged (name : String)
  | mkdir (dir : String)
  | writeFile (name : String) (text : String)
  deriving DecidableEq, Repr

/-- A fatal failure of helper_writer: an OS error propagating from
os.mkdir. -/
inductive WriteFailure where
  | mkdirError (dir : String)
  deriving DecidableEq, Repr

/-- Python os.path.dirname: everything before the final slash (empty when
the name has no slash). -/
def dirname (s : String) : String :=
  String.intercalate "/"
    (((splitOnChar '/' s.data).dropLast).map (fun cs => String.mk cs))

/-- The destination file name helper_writer uses (helper.py lines
150-155): the override path when non-empty — Python truthiness — else the
record's path, joined with the record's filename, or `name.xml` when the
filename is empty. -/
def writerDestName (h : Helper) (path : Option String) : String :=
  match path with
  | some p =>
    if p ≠ "" then
      if h.filename ≠ "" then p ++ "/" ++ h.filename
      else p ++ "/" ++ h.name ++ ".xml"
    else
      if h.filename ≠ "" then h.path ++ "/" ++ h.filename
      else h.path ++ "/" ++ h.name ++ ".xml"
  | none =>
    if h.filename ≠ "" then h.path ++ "/" ++ h.filename
    else h.path ++ "/" ++ h.name ++ ".xml"

/-- The best-effort backup phase of helper_writer (helper.py lines
157-161): when a file exists at the destination, copy it to the `.old`
sibling; a copy failure is only logged. -/
def writerBackupSteps (h : Helper) (path : Option String) (fs : FSModel) :
    List WriteStep :=
  if fs.fileExists (writerDestName h path) then
    if fs.copyFails then
      [WriteStep.backupFailLogged (writerDestName h path)]
    else
      [WriteStep.backupCopy (writerDestName h path)
        (writerDestName h path ++ ".old")]
  else []

/-- The directory-creation phase of helper_writer (helper.py lines
163-167): when the destination's parent lies under ETC_FIREWALLD and does
not exist, create ETC_FIREWALLD if absent and then the parent; an mkdir
failure aborts the phase with the propagating error. -/
def writerMkdirPhase (dirpath : String) (fs : FSModel) :
    List WriteStep × Option WriteFailure :=
  if startswith dirpath ETC_FIREWALLD && !(fs.fileExists dirpath) then
    if !(fs.fileExists ETC_FIREWALLD) then
      if fs.mkdirFails ETC_FIREWALLD then
        ([], some (WriteFailure.mkdirError ETC_FIREWALLD))
      else if fs.mkdirFails dirpath then
        ([WriteStep.mkdir ETC_FIREWALLD],
         some (WriteFailure.mkdirError dirpath))
      else
        ([WriteStep.mkdir ETC_FIREWALLD, WriteStep.mkdir dirpath], none)
    else
      if fs.mkdirFails dirpath then
        ([], some (WriteFailure.mkdirError dirpath))
      else
        ([WriteStep.mkdir dirpath], none)
  else ([], none)

/-- `helper_writer` (helper.py lines 149-209) over the file-system oracle:
compute the destination name, attempt the best-effort backup, create
missing directories under ETC_FIREWALLD (an mkdir failure propagates and
aborts the write), then emit the document.  Returns the trace of
file-system steps together with either the document text written or the
fatal failure. -/
def helper_writer (h : Helper) (path : Option String) (fs : FSModel) :
    List WriteStep × Except WriteFailure String :=
  match writerMkdirPhase (dirname (writerDestName h path)) fs with
  | (steps, some e) =>
    (writerBackupSteps h path fs ++ steps, Except.error e)
  | (steps, none) =>
    (writerBackupSteps h path fs ++ steps ++
      [WriteStep.writeFile (writerDestName h path) (helper_writer_doc h)],
     Except.ok (helper_writer_doc h))

/-- Modelled from the spec: the consumed document services are assumed
already correct, so parsing the document that the emission service
produced delivers the matching traversal events back to the content
handler: elements open and close as emitted, a self-closing element opens
and immediately closes, and text content as well as inter-element
whitespace come back as character data. -/
def XmlEvent.toSax : XmlEvent → List SaxEvent
  | XmlEvent.startElement n a => [SaxEvent.startElement n a]
  | XmlEvent.endElement n => [SaxEvent.endElement n]
  | XmlEvent.characters s => [SaxEvent.characters s]
  | XmlEvent.ignorableWhitespace s => [SaxEvent.characters s]
  | XmlEvent.simpleElement n a =>
    [SaxEvent.startElement n a, SaxEvent.endElement n]

/-- The event stream that re-reading the document written for record `h`
delivers to the content handler. -/
def parsedWriterEvents (h : Helper) : List SaxEvent :=
  ((helper_writer_events h).map XmlEvent.toSax).flatten

/-- Whether a validation call succeeded. -/
def exceptOk {ε α : Type} : Except ε α → Bool
  | Except.ok _ => true
  | Except.error _ => false

/-- A valid record per the data-model invariants: a validating name, a
family that is empty or one of the two permitted values, every port pair
passing the port and protocol checks, and no duplicate port pairs. -/
def Helper.validB (h : Helper) : Bool :=
  exceptOk (check_name h.name) &&
    (decide (h.family = "") || decide (h.family = "ipv4") ||
      decide (h.family = "ipv6")) &&
    h.ports.all (fun p =>
      exceptOk (check_port p.1) && exceptOk (check_tcpudp p.2)) &&
    decide h.ports.Nodup

/-- The append-if-new operation the port handler performs on the ports
list (helper.py lines 114-119). -/
def addPort (acc : List (String × String)) (p : String × String) :
    List (String × String) :=
  if p ∈ acc then acc else acc ++ [p]

/-- First-occurrence deduplication with an explicit set of already-seen
pairs. -/
def dedupFirstAux (seen : List (String × String)) :
    List (String × String) → List (String × String)
  | [] => []
  | x :: xs =>
    if x ∈ seen then dedupFirstAux seen xs
    else x :: dedupFirstAux (x :: seen) xs

/-- First-occurrence deduplication: each distinct pair kept exactly once,
at the position of its first occurrence. -/
def dedupFirst (ps : List (String × String)) : List (String × String) :=
  dedupFirstAux [] ps

/-- A bare sequence of port elements, as the traversal delivers it. -/
def portEvents (ps : List (String × String)) : List SaxEvent :=
  (ps.map (fun p =>
    [SaxEvent.startElement "port" [("port", p.1), ("protocol", p.2)],
     SaxEvent.endElement "port"])).flatten

/-- The port lines of the document shape the specification describes. -/
def specPortLines : List (String × String) → String
  | [] => ""
  | p :: rest =>
    "  <port port=\"" ++ p.1 ++ "\" protocol=\"" ++ p.2 ++ "\"/>\n" ++
      specPortLines rest

/-- The document shape exactly as the specification words it: the header;
a root helper element whose version attribute appears only if version is
non-empty and whose family attribute appears only if family is non-empty,
version before family; a newline; a two-space-indented short and then
description element only when the field is non-empty, each followed by a
newline; one two-space-indented self-closing port element per stored pair
in stored order with attributes port then protocol, each followed by a
newline; and the closing root element with a trailing newline. -/
def specDocShape (h : Helper) : String :=
  "<?xml version=\"1.0\" ?>\n" ++
    ("<helper" ++
      (if h.version ≠ "" then " version=\"" ++ h.version ++ "\"" else "") ++
      (if h.family ≠ "" then " family=\"" ++ h.family ++ "\"" else "") ++
      ">\n") ++
    (if h.short ≠ "" then "  <short>" ++ h.short ++ "</short>\n" else "") ++
    (if h.description ≠ "" then
      "  <description>" ++ h.description ++ "</description>\n"
    else "") ++
    specPortLines h.ports ++
    "</helper>\n"

/-!
Theorems.
-/

/-- C6: for every Helper record, cleanup sets version, short, description
and family to the empty string and empties the ports sequence, and leaves
name, path, filename and the builtin / default origin flags unchanged. -/
theorem cleanup_clears_and_frames (h : Helper) :
    h.cleanup.version = "" ∧ h.cleanup.short = "" ∧
    h.cleanup.description = "" ∧ h.cleanup.family = "" ∧
    h.cleanup.ports = [] ∧ h.cleanup.name = h.name ∧
    h.cleanup.path = h.path ∧ h.cleanup.filename = h.filename ∧
    h.cleanup.builtin = h.builtin ∧ h.cleanup.default = h.default :=
  ⟨rfl, rfl, rfl, rfl, rfl, rfl, rfl, rfl, rfl, rfl⟩

/-- C5: for every filename that does not end in .xml, helper_reader fails
with INVALID_NAME and opens no file. -/
theorem reader_missing_suffix (filename path : String)
    (fs : String → ParseOutcome) (hsuf : ¬ endswith filename ".xml") :
    (helper_reader filename path fs).result =
      Except.error (ReadFailure.fw ⟨ErrorCode.INVALID_NAME,
        "'" ++ filename ++ "' is missing .xml suffix"⟩) ∧
    (helper_reader filename path fs).opened = [] := by
  unfold helper_reader
  rw [if_pos hsuf]
  exact ⟨rfl, rfl⟩

/-- Witness for C5 at the concrete filename foo.txt. -/
theorem reader_missing_suffix_witness :
    ¬ endswith "foo.txt" ".xml" ∧
    (helper_reader "foo.txt" "/etc/firewalld/helpers"
      (fun _ => ParseOutcome.missing)).result =
      Except.error (ReadFailure.fw ⟨ErrorCode.INVALID_NAME,
        "'foo.txt' is missing .xml suffix"⟩) ∧
    (helper_reader "foo.txt" "/etc/firewalld/helpers"
      (fun _ => ParseOutcome.missing)).opened = [] := by
  have hs : ¬ endswith "foo.txt" ".xml" := by decide
  exact ⟨hs, (reader_missing_suffix _ _ _ hs).1,
    (reader_missing_suffix _ _ _ hs).2⟩

/-- The attribute-shape check accepts a lone family attribute on the
root element. -/
lemma pc_family_reduce (v : String) :
    parser_check_element_attrs "helper" [("family", v)] = Except.ok () := rfl

/-- Reduction of the root-element handler on a lone family attribute. -/
lemma startElement_family_reduce (v : String) (st : HandlerState) :
    helper_startElement st "helper" [("family", v)] =
      match Helper.check_ipv v with
      | Except.ok _ => Except.ok ⟨{ st.item with family := v }, ""⟩
      | Except.error e => Except.error e := by
  unfold helper_startElement
  rw [pc_family_reduce]
  simp [List.lookup]
  cases hc : Helper.check_ipv v <;> simp [hc]

/-- C2: family validation accepts exactly ipv4 and ipv6 — any other value
fails with INVALID_IPV, also when it arrives as the family attribute of
the root element during a read — and a permitted value validates
successfully and is stored in the record's family field. -/
theorem family_validation (v : String) (st : HandlerState) :
    ((v ≠ "ipv4" ∧ v ≠ "ipv6") →
      (∃ m, Helper.check_ipv v = Except.error ⟨ErrorCode.INVALID_IPV, m⟩) ∧
      (∃ m, helper_startElement st "helper" [("family", v)] =
        Except.error ⟨ErrorCode.INVALID_IPV, m⟩)) ∧
    ((v = "ipv4" ∨ v = "ipv6") →
      Helper.check_ipv v = Except.ok () ∧
      helper_startElement st "helper" [("family", v)] =
        Except.ok ⟨{ st.item with family := v }, ""⟩) := by
  constructor
  · rintro ⟨h4, h6⟩
    have hc : Helper.check_ipv v =
        Except.error ⟨ErrorCode.INVALID_IPV,
          "'" ++ v ++ "' not in '['ipv4', 'ipv6']'"⟩ := by
      unfold Helper.check_ipv
      rw [if_neg (not_or.mpr ⟨h4, h6⟩)]
    refine ⟨⟨_, hc⟩, "'" ++ v ++ "' not in '['ipv4', 'ipv6']'", ?_⟩
    rw [startElement_family_reduce v st, hc]
  · intro hv
    have hc : Helper.check_ipv v = Except.ok () := by
      unfold Helper.check_ipv
      rw [if_pos hv]
    exact ⟨hc, by rw [startElement_family_reduce v st, hc]⟩

/-- Witness for C2 at the rejected value ipv5 and the accepted value
ipv4. -/
theorem family_validation_witness :
    (("ipv5" ≠ "ipv4" ∧ "ipv5" ≠ "ipv6") ∧
      (∃ m, Helper.check_ipv "ipv5" =
        Except.error ⟨ErrorCode.INVALID_IPV, m⟩) ∧
      (∃ m, helper_startElement ⟨Helper.init, ""⟩ "helper"
          [("family", "ipv5")] =
        Except.error ⟨ErrorCode.INVALID_IPV, m⟩)) ∧
    (("ipv4" = "ipv4" ∨ "ipv4" = "ipv6") ∧
      Helper.check_ipv "ipv4" = Except.ok () ∧
      helper_startElement ⟨Helper.init, ""⟩ "helper" [("family", "ipv4")] =
        Except.ok ⟨{ Helper.init with family := "ipv4" }, ""⟩) := by
  constructor
  · have h := (family_validation "ipv5" ⟨Helper.init, ""⟩).1 (by decide)
    exact ⟨by decide, h.1, h.2⟩
  · have h := (family_validation "ipv4" ⟨Helper.init, ""⟩).2 (Or.inl rfl)
    exact ⟨Or.inl rfl, h.1, h.2⟩

/-- The start-element handler never assigns name, path, filename, builtin
or default. -/
lemma helper_startElement_frame (st st2 : HandlerState) (n : String)
    (a : List (String × String))
    (hok : helper_startElement st n a = Except.ok st2) :
    st2.item.name = st.item.name ∧ st2.item.path = st.item.path ∧
    st2.item.filename = st.item.filename ∧
    st2.item.builtin = st.item.builtin ∧
    st2.item.default = st.item.default := by
  unfold helper_startElement at hok
  repeat
    first
    | exact ⟨rfl, rfl, rfl, rfl, rfl⟩
    | (injection hok with h; subst h)
    | cases hok
    | split at hok
    | split
    | simp only [] at hok

/-- The end-element handler never assigns name, path, filename, builtin
or default. -/
lemma helper_endElement_frame (st : HandlerState) (nm : String) :
    (helper_endElement st nm).item.name = st.item.name ∧
    (helper_endElement st nm).item.path = st.item.path ∧
    (helper_endElement st nm).item.filename = st.item.filename ∧
    (helper_endElement st nm).item.builtin = st.item.builtin ∧
    (helper_endElement st nm).item.default = st.item.default := by
  unfold helper_endElement
  repeat
    first
    | exact ⟨rfl, rfl, rfl, rfl, rfl⟩
    | split

/-- Event processing never changes name, path, filename, builtin or
default of the record under construction. -/
lemma processEvents_frame (evs : List SaxEvent) (st st2 : HandlerState)
    (hok : processEvents st evs = Except.ok st2) :
    st2.item.name = st.item.name ∧ st2.item.path = st.item.path ∧
    st2.item.filename = st.item.filename ∧
    st2.item.builtin = st.item.builtin ∧
    st2.item.default = st.item.default := by
  induction evs generalizing st with
  | nil =>
    unfold processEvents at hok
    injection hok with h
    subst h
    exact ⟨rfl, rfl, rfl, rfl, rfl⟩
  | cons e rest ih =>
    unfold processEvents at hok
    cases he : handleEvent st e with
    | error err => rw [he] at hok; cases hok
    | ok st1 =>
      rw [he] at hok
      obtain ⟨h1, h2, h3, h4, h5⟩ := ih st1 hok
      cases e with
      | startElement nm a =>
        obtain ⟨g1, g2, g3, g4, g5⟩ := helper_startElement_frame st st1 nm a he
        exact ⟨h1.trans g1, h2.trans g2, h3.trans g3, h4.trans g4,
          h5.trans g5⟩
      | characters s =>
        injection he with hh
        subst hh
        exact ⟨h1, h2, h3, h4, h5⟩
      | endElement nm =>
        injection he with hh
        subst hh
        obtain ⟨g1, g2, g3, g4, g5⟩ := helper_endElement_frame st nm
        exact ⟨h1.trans g1, h2.trans g2, h3.trans g3, h4.trans g4,
          h5.trans g5⟩

/-- C7: in any record helper_reader returns, the origin classification is
a pure function of the path argument: builtin is false exactly when the
path starts with the user-writable configuration root, and default equals
builtin. -/
theorem reader_origin_pure (filename path : String)
    (fs : String → ParseOutcome) (h2 : Helper)
    (hok : (helper_reader filename path fs).result = Except.ok h2) :
    (h2.builtin = false ↔ startswith path ETC_FIREWALLD = true) ∧
    h2.default = h2.builtin := by
  unfold helper_reader at hok
  split at hok
  · cases hok
  · split at hok
    · cases hok
    · split at hok
      · cases hok
      · cases hok
      · rename_i evs hfs
        split at hok
        · rename_i st hpe
          injection hok with hh
          subst hh
          obtain ⟨-, -, -, g4, g5⟩ := processEvents_frame evs _ st hpe
          constructor
          · rw [g4]
            unfold readerInitHelper
            cases hsw : startswith path ETC_FIREWALLD <;> simp [hsw]
          · rw [g5, g4]
            rfl
        · cases hok

/-- Witness for C7 on a concrete read under the configuration root. -/
theorem reader_origin_pure_witness :
    (helper_reader "h.xml" "/etc/firewalld/helpers"
        (fun _ => ParseOutcome.events [])).result =
      Except.ok { Helper.init with
                  name := "h",
                  filename := "h.xml",
                  path := "/etc/firewalld/helpers",
                  builtin := false,
                  default := false } ∧
    (false = false ↔
      startswith "/etc/firewalld/helpers" ETC_FIREWALLD = true) ∧
    ((false : Bool) = false) := by
  have hok : (helper_reader "h.xml" "/etc/firewalld/helpers"
      (fun _ => ParseOutcome.events [])).result =
      Except.ok { Helper.init with
                  name := "h",
                  filename := "h.xml",
                  path := "/etc/firewalld/helpers",
                  builtin := false,
                  default := false } := rfl
  have h := reader_origin_pure "h.xml" "/etc/firewalld/helpers"
    (fun _ => ParseOutcome.events []) _ hok
  exact ⟨hok, h.1, h.2⟩

/-- An attribute outside the recognized set makes the attribute-shape
check fail. -/
lemma pc_unexpected_attr (ename : String) (attrs : List (String × String))
    (kv : String × String) (hmem : kv ∈ attrs)
    (hbad : kv.1 ∉ allowedAttrs ename) :
    ∃ e, parser_check_element_attrs ename attrs = Except.error e := by
  unfold parser_check_element_attrs
  split
  · exact ⟨_, rfl⟩
  · split
    · split
      · rename_i hall
        exfalso
        exact hbad (of_decide_eq_true (List.all_eq_true.mp hall kv hmem))
      · exact ⟨_, rfl⟩
    · exact ⟨_, rfl⟩

/-- The start-element handler propagates attribute-shape failures. -/
lemma helper_startElement_pc_error (st : HandlerState) (ename : String)
    (attrs : List (String × String)) (e : FirewallError)
    (he : parser_check_element_attrs ename attrs = Except.error e) :
    helper_startElement st ename attrs = Except.error e := by
  unfold helper_startElement
  rw [he]

/-- C9: the parser accepts an optional name attribute on the root helper
element — the handler leaves every record field untouched by it — whereas
an attribute outside the recognized set of any element is a fatal parse
failure. -/
theorem name_attr_ignored_unknown_attr_fatal (st : HandlerState)
    (n : String) (ename : String) (attrs : List (String × String))
    (kv : String × String) (hmem : kv ∈ attrs)
    (hbad : kv.1 ∉ allowedAttrs ename) :
    helper_startElement st "helper" [("name", n)] =
      Except.ok ⟨st.item, ""⟩ ∧
    ∃ e, helper_startElement st ename attrs = Except.error e := by
  constructor
  · rfl
  · obtain ⟨e, he⟩ := pc_unexpected_attr ename attrs kv hmem hbad
    exact ⟨e, helper_startElement_pc_error st ename attrs e he⟩

/-- Witness for C9: name is accepted and ignored on the root element; the
unrecognized attribute foo is fatal. -/
theorem name_attr_ignored_unknown_attr_fatal_witness :
    (("foo", "bar") ∈ [(("foo" : String), ("bar" : String))] ∧
      ("foo" : String) ∉ allowedAttrs "helper") ∧
    helper_startElement ⟨Helper.init, ""⟩ "helper" [("name", "myname")] =
      Except.ok ⟨Helper.init, ""⟩ ∧
    ∃ e, helper_startElement ⟨Helper.init, ""⟩ "helper" [("foo", "bar")] =
      Except.error e := by
  have h := name_attr_ignored_unknown_attr_fatal ⟨Helper.init, ""⟩ "myname"
    "helper" [("foo", "bar")] ("foo", "bar") (by decide) (by decide)
  exact ⟨⟨by decide, by decide⟩, h.1, h.2⟩

/-- The attribute-shape check accepts a port element with its two
attributes. -/
lemma pc_port_reduce (po pr : String) :
    parser_check_element_attrs "port" [("port", po), ("protocol", pr)] =
      Except.ok () := rfl

/-- Reduction of the handler on a valid port element: the pair is appended
exactly when not already present. -/
lemma startElement_port_reduce (st : HandlerState) (po pr : String)
    (hpo : check_port po = Except.ok ())
    (hpr : check_tcpudp pr = Except.ok ()) :
    helper_startElement st "port" [("port", po), ("protocol", pr)] =
      Except.ok ⟨{ st.item with
        ports := addPort st.item.ports (po, pr) }, ""⟩ := by
  unfold helper_startElement
  rw [pc_port_reduce]
  simp [List.lookup, hpo, hpr, addPort]
  split <;> rfl

/-- Closing a port element does not change the handler state. -/
lemma endElement_port (st : HandlerState) :
    helper_endElement st "port" = st := rfl

/-- Processing a sequence of port elements folds the append-if-new
operation over the pairs. -/
lemma processEvents_portEvents (ps : List (String × String)) :
    ∀ st : HandlerState,
    (∀ p ∈ ps, check_port p.1 = Except.ok () ∧
      check_tcpudp p.2 = Except.ok ()) →
    ∃ t, processEvents st (portEvents ps) =
      Except.ok ⟨{ st.item with
        ports := ps.foldl addPort st.item.ports }, t⟩ := by
  induction ps with
  | nil => exact fun st hv => ⟨st.elementText, rfl⟩
  | cons p rest ih =>
    intro st hv
    obtain ⟨hpo, hpr⟩ := hv p (List.mem_cons_self _ _)
    have hpe : portEvents (p :: rest) =
        SaxEvent.startElement "port" [("port", p.1), ("protocol", p.2)] ::
          SaxEvent.endElement "port" :: portEvents rest := rfl
    rw [hpe]
    simp only [processEvents, handleEvent,
      startElement_port_reduce st p.1 p.2 hpo hpr, endElement_port]
    obtain ⟨t, hrec⟩ := ih ⟨{ st.item with
      ports := addPort st.item.ports p }, ""⟩
      (fun q hq => hv q (List.mem_cons_of_mem _ hq))
    exact ⟨t, hrec⟩

/-- The deduplication helper depends on the seen set only through
membership. -/
lemma dedupFirstAux_congr (ps : List (String × String)) :
    ∀ s1 s2 : List (String × String), (∀ x, x ∈ s1 ↔ x ∈ s2) →
    dedupFirstAux s1 ps = dedupFirstAux s2 ps := by
  induction ps with
  | nil => intro s1 s2 h; rfl
  | cons p rest ih =>
    intro s1 s2 h
    by_cases hp : p ∈ s1
    · rw [show dedupFirstAux s1 (p :: rest) = dedupFirstAux s1 rest from by
        simp [dedupFirstAux, hp]]
      rw [show dedupFirstAux s2 (p :: rest) = dedupFirstAux s2 rest from by
        simp [dedupFirstAux, (h p).mp hp]]
      exact ih s1 s2 h
    · have hp2 : p ∉ s2 := fun hh => hp ((h p).mpr hh)
      rw [show dedupFirstAux s1 (p :: rest) =
          p :: dedupFirstAux (p :: s1) rest from by simp [dedupFirstAux, hp]]
      rw [show dedupFirstAux s2 (p :: rest) =
          p :: dedupFirstAux (p :: s2) rest from by simp [dedupFirstAux, hp2]]
      rw [ih (p :: s1) (p :: s2) (fun x => by simp [h x])]

/-- Folding the append-if-new operation appends exactly the
first-occurrence deduplication of the not-yet-present pairs. -/
lemma foldl_addPort_general (ps : List (String × String)) :
    ∀ acc, ps.foldl addPort acc = acc ++ dedupFirstAux acc ps := by
  induction ps with
  | nil => intro acc; simp [dedupFirstAux]
  | cons p rest ih =>
    intro acc
    by_cases hp : p ∈ acc
    · have ha : addPort acc p = acc := by simp [addPort, hp]
      rw [List.foldl_cons, ha, ih acc]
      rw [show dedupFirstAux acc (p :: rest) = dedupFirstAux acc rest from by
        simp [dedupFirstAux, hp]]
    · have ha : addPort acc p = acc ++ [p] := by simp [addPort, hp]
      rw [List.foldl_cons, ha, ih (acc ++ [p])]
      rw [show dedupFirstAux acc (p :: rest) =
          p :: dedupFirstAux (p :: acc) rest from by simp [dedupFirstAux, hp]]
      rw [dedupFirstAux_congr rest (acc ++ [p]) (p :: acc)
        (fun x => by simp [List.mem_append, or_comm])]
      simp [List.append_assoc]

/-- Membership in the deduplication helper. -/
lemma mem_dedupFirstAux (x : String × String)
    (ps : List (String × String)) :
    ∀ seen, x ∈ dedupFirstAux seen ps ↔ (x ∈ ps ∧ x ∉ seen) := by
  induction ps with
  | nil => intro seen; simp [dedupFirstAux]
  | cons p rest ih =>
    intro seen
    by_cases hp : p ∈ seen
    · rw [show dedupFirstAux seen (p :: rest) = dedupFirstAux seen rest from
        by simp [dedupFirstAux, hp]]
      rw [ih seen]
      simp only [List.mem_cons]
      constructor
      · rintro ⟨hx, hns⟩
        exact ⟨Or.inr hx, hns⟩
      · rintro ⟨hx | hx, hns⟩
        · exact absurd (hx ▸ hp) hns
        · exact ⟨hx, hns⟩
    · rw [show dedupFirstAux seen (p :: rest) =
          p :: dedupFirstAux (p :: seen) rest from by
        simp [dedupFirstAux, hp]]
      simp only [List.mem_cons, ih (p :: seen)]
      constructor
      · rintro (rfl | ⟨hx, hns⟩)
        · exact ⟨Or.inl rfl, hp⟩
        · exact ⟨Or.inr hx, fun hseen => hns (Or.inr hseen)⟩
      · rintro ⟨rfl | hx, hns⟩
        · exact Or.inl rfl
        · by_cases hxp : x = p
          · exact Or.inl hxp
          · exact Or.inr ⟨hx, by simp [hxp, hns]⟩

/-- The deduplication helper yields a duplicate-free list. -/
lemma nodup_dedupFirstAux (ps : List (String × String)) :
    ∀ seen, (dedupFirstAux seen ps).Nodup := by
  induction ps with
  | nil => intro seen; simp [dedupFirstAux]
  | cons p rest ih =>
    intro seen
    by_cases hp : p ∈ seen
    · rw [show dedupFirstAux seen (p :: rest) = dedupFirstAux seen rest from
        by simp [dedupFirstAux, hp]]
      exact ih seen
    · rw [show dedupFirstAux seen (p :: rest) =
          p :: dedupFirstAux (p :: seen) rest from by
        simp [dedupFirstAux, hp]]
      refine List.nodup_cons.mpr ⟨?_, ih (p :: seen)⟩
      intro hmem
      exact ((mem_dedupFirstAux p rest (p :: seen)).mp hmem).2
        (List.mem_cons_self _ _)

/-- On a duplicate-free list whose elements are unseen, deduplication is
the identity. -/
lemma dedupFirstAux_of_nodup (ps : List (String × String)) (hnd : ps.Nodup) :
    ∀ seen, (∀ x ∈ ps, x ∉ seen) → dedupFirstAux seen ps = ps := by
  induction ps with
  | nil => intro seen _; rfl
  | cons p rest ih =>
    intro seen hout
    obtain ⟨hp, hrest⟩ := List.nodup_cons.mp hnd
    rw [show dedupFirstAux seen (p :: rest) =
        p :: dedupFirstAux (p :: seen) rest from by
      simp [dedupFirstAux, hout p (List.mem_cons_self _ _)]]
    rw [ih hrest (p :: seen) (fun x hx => by
      simp only [List.mem_cons]
      rintro (rfl | hxs)
      · exact hp hx
      · exact hout x (List.mem_cons_of_mem _ hx) hxs)]

/-- Membership in the first-occurrence deduplication. -/
lemma mem_dedupFirst (x : String × String) (ps : List (String × String)) :
    x ∈ dedupFirst ps ↔ x ∈ ps := by
  unfold dedupFirst
  rw [mem_dedupFirstAux]
  simp

/-- The first-occurrence deduplication is duplicate-free. -/
lemma nodup_dedupFirst (ps : List (String × String)) :
    (dedupFirst ps).Nodup := nodup_dedupFirstAux ps []

/-- On a duplicate-free list, first-occurrence deduplication is the
identity. -/
lemma dedupFirst_of_nodup (ps : List (String × String)) (h : ps.Nodup) :
    dedupFirst ps = ps :=
  dedupFirstAux_of_nodup ps h [] (fun x _ hx => (List.not_mem_nil x) hx)

/-- A member of a duplicate-free list is counted exactly once. -/
lemma count_eq_one_of_nodup_mem (p : String × String)
    (l : List (String × String)) (hnd : l.Nodup) (hm : p ∈ l) :
    l.count p = 1 := by
  induction l with
  | nil => cases hm
  | cons q rest ih =>
    obtain ⟨hq, hrest⟩ := List.nodup_cons.mp hnd
    rcases List.mem_cons.mp hm with rfl | hm2
    · rw [List.count_cons_self]
      rw [List.count_eq_zero.mpr hq]
    · have hne : p ≠ q := fun he => hq (he ▸ hm2)
      rw [List.count_cons_of_ne hne]
      exact ih hrest hm2

/-- C3: during a read, a port pair exactly equal to one already present is
not appended: processing any sequence of valid port elements from an empty
ports sequence succeeds and yields exactly the first-occurrence
deduplication of the sequence, so each distinct pair occurs exactly once,
at its first-seen position, and later duplicates never overwrite earlier
entries. -/
theorem ports_first_seen_dedup (ps : List (String × String))
    (st : HandlerState)
    (hv : ∀ p ∈ ps, check_port p.1 = Except.ok () ∧
      check_tcpudp p.2 = Except.ok ())
    (h0 : st.item.ports = []) :
    ∃ st2, processEvents st (portEvents ps) = Except.ok st2 ∧
      st2.item.ports = dedupFirst ps ∧
      st2.item.ports.Nodup ∧
      (∀ p ∈ ps, st2.item.ports.count p = 1) := by
  obtain ⟨t, hpe⟩ := processEvents_portEvents ps st hv
  have hports : ps.foldl addPort st.item.ports = dedupFirst ps := by
    rw [h0, foldl_addPort_general ps []]
    rfl
  refine ⟨_, hpe, hports, ?_, ?_⟩
  · show (ps.foldl addPort st.item.ports).Nodup
    rw [hports]
    exact nodup_dedupFirst ps
  · intro p hp
    show (ps.foldl addPort st.item.ports).count p = 1
    rw [hports]
    exact count_eq_one_of_nodup_mem p (dedupFirst ps) (nodup_dedupFirst ps)
      ((mem_dedupFirst p ps).mpr hp)

/-- Witness for C3 on a concrete sequence with a duplicate pair. -/
theorem ports_first_seen_dedup_witness :
    (∃ st2, processEvents ⟨Helper.init, ""⟩
        (portEvents [("21", "tcp"), ("80", "tcp"), ("21", "tcp")]) =
        Except.ok st2 ∧
      st2.item.ports =
        dedupFirst [("21", "tcp"), ("80", "tcp"), ("21", "tcp")] ∧
      st2.item.ports.Nodup ∧
      (∀ p ∈ [(("21" : String), ("tcp" : String)), ("80", "tcp"),
          ("21", "tcp")], st2.item.ports.count p = 1)) ∧
    dedupFirst [("21", "tcp"), ("80", "tcp"), ("21", "tcp")] =
      [("21", "tcp"), ("80", "tcp")] := by
  constructor
  · exact ports_first_seen_dedup
      [("21", "tcp"), ("80", "tcp"), ("21", "tcp")] ⟨Helper.init, ""⟩
      (by
        intro p hp
        simp only [List.mem_cons] at hp
        rcases hp with rfl | rfl | rfl | hp
        · exact ⟨rfl, rfl⟩
        · exact ⟨rfl, rfl⟩
        · exact ⟨rfl, rfl⟩
        · cases hp)
      rfl
  · rfl

/-- Rendering distributes over concatenation of emission calls. -/
lemma renderEvents_append (a b : List XmlEvent) :
    renderEvents (a ++ b) = renderEvents a ++ renderEvents b := by
  induction a with
  | nil => simp [renderEvents]
  | cons e rest ih => simp [renderEvents, ih, String.append_assoc]

/-- The rendered port blocks are the specification's port lines. -/
lemma renderEvents_ports (ports : List (String × String)) :
    renderEvents ((ports.map (fun port =>
      [XmlEvent.ignorableWhitespace "  ",
       XmlEvent.simpleElement "port" [("port", port.1), ("protocol", port.2)],
       XmlEvent.ignorableWhitespace "\n"])).flatten) = specPortLines ports := by
  induction ports with
  | nil => rfl
  | cons p rest ih =>
    simp only [List.map_cons, List.flatten_cons, renderEvents_append, ih,
      specPortLines]
    simp [renderEvents, renderEvent, renderAttrs, String.append_assoc]
    rfl

/-- The document text helper_writer emits is exactly the shape the
specification describes, for every record. -/
lemma writer_doc_shape (h : Helper) :
    helper_writer_doc h = specDocShape h := by
  unfold helper_writer_doc specDocShape xmlHeader helper_writer_events
  by_cases hv : h.version = "" <;> by_cases hf : h.family = "" <;>
    by_cases hs : h.short = "" <;> by_cases hd : h.description = "" <;>
      simp [hv, hf, hs, hd, renderEvents_append, renderEvents, renderEvent,
        renderAttrs, renderEvents_ports, String.append_assoc] <;> rfl

/-- Whenever helper_writer succeeds, the written text is the record's
document. -/
lemma helper_writer_snd_ok (h : Helper) (p : Option String) (fs : FSModel)
    (d : String) (hok : (helper_writer h p fs).2 = Except.ok d) :
    d = helper_writer_doc h := by
  unfold helper_writer at hok
  split at hok
  · cases hok
  · injection hok with hh
    exact hh.symm

/-- C4: the writer emits a document of the fixed deterministic shape the
specification describes — root helper element with the version attribute
only if version is non-empty and the family attribute only if family is
non-empty, version before family; two-space-indented short and description
elements only when non-empty; one two-space-indented self-closing port
element per pair in stored order with attributes port then protocol, each
line followed by a newline — and re-writing an unmodified record produces
byte-identical output. -/
theorem writer_fixed_shape (h : Helper) :
    helper_writer_doc h = specDocShape h ∧
    (∀ p fs fs2 d d2, (helper_writer h p fs).2 = Except.ok d →
      (helper_writer h p fs2).2 = Except.ok d2 → d = d2) := by
  refine ⟨writer_doc_shape h, fun p fs fs2 d d2 h1 h2 => ?_⟩
  rw [helper_writer_snd_ok h p fs d h1, helper_writer_snd_ok h p fs2 d2 h2]

/-- Witness for C4 on a concrete record and two different file systems. -/
theorem writer_fixed_shape_witness :
    helper_writer_doc { Helper.init with
      name := "x", path := "/tmp", version := "1", family := "ipv4",
      description := "d", ports := [("80", "tcp")] } =
      specDocShape { Helper.init with
        name := "x", path := "/tmp", version := "1", family := "ipv4",
        description := "d", ports := [("80", "tcp")] } ∧
    ((helper_writer { Helper.init with
        name := "x", path := "/tmp", version := "1", family := "ipv4",
        description := "d", ports := [("80", "tcp")] } none
        ⟨fun _ => false, false, fun _ => false⟩).2 =
      Except.ok (helper_writer_doc { Helper.init with
        name := "x", path := "/tmp", version := "1", family := "ipv4",
        description := "d", ports := [("80", "tcp")] })) ∧
    ((helper_writer { Helper.init with
        name := "x", path := "/tmp", version := "1", family := "ipv4",
        description := "d", ports := [("80", "tcp")] } none
        ⟨fun _ => true, true, fun _ => false⟩).2 =
      Except.ok (helper_writer_doc { Helper.init with
        name := "x", path := "/tmp", version := "1", family := "ipv4",
        description := "d", ports := [("80", "tcp")] })) := by
  refine ⟨(writer_fixed_shape _).1, rfl, rfl⟩

/-- C8: the backup of an existing destination file is attempted and its
failure never changes the outcome of the write, while an mkdir failure for
a missing parent directory under the configuration root aborts the write
with the propagating error. -/
theorem backup_nonfatal_mkdir_fatal (h : Helper) (p : Option String)
    (fs : FSModel) :
    ((helper_writer h p { fs with copyFails := true }).2 =
      (helper_writer h p { fs with copyFails := false }).2) ∧
    (fs.fileExists (writerDestName h p) = true →
      (helper_writer h p fs).1.head? =
        some (if fs.copyFails then
          WriteStep.backupFailLogged (writerDestName h p)
        else
          WriteStep.backupCopy (writerDestName h p)
            (writerDestName h p ++ ".old"))) ∧
    (startswith (dirname (writerDestName h p)) ETC_FIREWALLD = true →
      fs.fileExists (dirname (writerDestName h p)) = false →
      fs.fileExists ETC_FIREWALLD = true →
      fs.mkdirFails (dirname (writerDestName h p)) = true →
      (helper_writer h p fs).2 =
        Except.error (WriteFailure.mkdirError
          (dirname (writerDestName h p)))) := by
  refine ⟨?_, ?_, ?_⟩
  · have hb : ∀ b, writerMkdirPhase (dirname (writerDestName h p))
        { fs with copyFails := b } =
        writerMkdirPhase (dirname (writerDestName h p)) fs := fun b => rfl
    unfold helper_writer
    rw [hb true, hb false]
    cases hph : writerMkdirPhase (dirname (writerDestName h p)) fs with
    | mk steps failure => cases failure <;> rfl
  · intro hex
    have hbs : writerBackupSteps h p fs =
        [if fs.copyFails then
          WriteStep.backupFailLogged (writerDestName h p)
        else
          WriteStep.backupCopy (writerDestName h p)
            (writerDestName h p ++ ".old")] := by
      unfold writerBackupSteps
      rw [if_pos hex]
      cases hc : fs.copyFails <;> simp
    unfold helper_writer
    cases hph : writerMkdirPhase (dirname (writerDestName h p)) fs with
    | mk steps failure => cases failure <;> simp [hbs]
  · intro hsw hnx hetc hmkd
    have hphase : writerMkdirPhase (dirname (writerDestName h p)) fs =
        ([], some (WriteFailure.mkdirError
          (dirname (writerDestName h p)))) := by
      unfold writerMkdirPhase
      rw [hsw, hnx, hetc, hmkd]
      simp
    unfold helper_writer
    rw [hphase]

/-- Witness for C8 on a concrete record whose destination file exists,
with a failing backup copy and a failing directory creation. -/
theorem backup_nonfatal_mkdir_fatal_witness :
    ((helper_writer { Helper.init with
        name := "h", path := "/etc/firewalld/helpers" } none
        ⟨fun s => (s = "/etc/firewalld/helpers/h.xml" ||
          s = "/etc/firewalld"), true, fun _ => true⟩).2 =
      (helper_writer { Helper.init with
        name := "h", path := "/etc/firewalld/helpers" } none
        ⟨fun s => (s = "/etc/firewalld/helpers/h.xml" ||
          s = "/etc/firewalld"), false, fun _ => true⟩).2) ∧
    ((helper_writer { Helper.init with
        name := "h", path := "/etc/firewalld/helpers" } none
        ⟨fun s => (s = "/etc/firewalld/helpers/h.xml" ||
          s = "/etc/firewalld"), true, fun _ => true⟩).1.head? =
      some (WriteStep.backupFailLogged "/etc/firewalld/helpers/h.xml")) ∧
    ((helper_writer { Helper.init with
        name := "h", path := "/etc/firewalld/helpers" } none
        ⟨fun s => (s = "/etc/firewalld/helpers/h.xml" ||
          s = "/etc/firewalld"), true, fun _ => true⟩).2 =
      Except.error (WriteFailure.mkdirError "/etc/firewalld/helpers")) := by
  have h := backup_nonfatal_mkdir_fatal
    { Helper.init with name := "h", path := "/etc/firewalld/helpers" } none
    ⟨fun s => (s = "/etc/firewalld/helpers/h.xml" ||
      s = "/etc/firewalld"), true, fun _ => true⟩
  refine ⟨?_, ?_, ?_⟩
  · exact h.1
  · exact h.2.1 (by decide)
  · exact h.2.2 (by decide) (by decide) (by decide) (by decide)

/-- C10: helper_writer validates nothing: for every record — including
one whose family is not a permitted value or whose port pairs fail the
read-side predicates — the write raises no validation error: whenever no
directory creation fails it succeeds, and the document it emits splices
the field values verbatim into the fixed shape. -/
theorem writer_no_validation (h : Helper) (p : Option String) (fs : FSModel)
    (hmk : ∀ dir, fs.mkdirFails dir = false) :
    (helper_writer h p fs).2 = Except.ok (helper_writer_doc h) ∧
    helper_writer_doc h = specDocShape h := by
  constructor
  · have hphase : (writerMkdirPhase (dirname (writerDestName h p)) fs).2 =
        none := by
      unfold writerMkdirPhase
      split
      · split
        · simp [hmk]
        · simp [hmk]
      · rfl
    unfold helper_writer
    cases hph : writerMkdirPhase (dirname (writerDestName h p)) fs with
    | mk steps failure =>
      cases failure with
      | none => rfl
      | some e =>
        rw [hph] at hphase
        cases hphase
  · exact writer_doc_shape h

/-- Witness for C10 on a record with an invalid family and an invalid
port pair. -/
theorem writer_no_validation_witness :
    exceptOk (Helper.check_ipv "bogus") = false ∧
    exceptOk (check_port "notaport") = false ∧
    exceptOk (check_tcpudp "xyz") = false ∧
    ((helper_writer { Helper.init with
        name := "x", path := "/tmp", family := "bogus",
        ports := [("notaport", "xyz")] } none
        ⟨fun _ => false, false, fun _ => false⟩).2 =
      Except.ok (helper_writer_doc { Helper.init with
        name := "x", path := "/tmp", family := "bogus",
        ports := [("notaport", "xyz")] })) ∧
    helper_writer_doc { Helper.init with
      name := "x", path := "/tmp", family := "bogus",
      ports := [("notaport", "xyz")] } =
      specDocShape { Helper.init with
        name := "x", path := "/tmp", family := "bogus",
        ports := [("notaport", "xyz")] } := by
  have h := writer_no_validation { Helper.init with
      name := "x", path := "/tmp", family := "bogus",
      ports := [("notaport", "xyz")] } none
    ⟨fun _ => false, false, fun _ => false⟩ (fun dir => rfl)
  exact ⟨rfl, rfl, rfl, h.1, h.2⟩

/-- A Unit-valued validation call whose success flag is set returned
exactly ok. -/
lemma exceptOk_unit_iff (e : Except FirewallError Unit) :
    exceptOk e = true ↔ e = Except.ok () := by
  cases e with
  | ok u => cases u; simp [exceptOk]
  | error err => simp [exceptOk]

/-- Decomposition of record validity into its four component facts. -/
lemma validB_parts (h : Helper) (hv : h.validB = true) :
    check_name h.name = Except.ok () ∧
    (h.family = "" ∨ h.family = "ipv4" ∨ h.family = "ipv6") ∧
    (∀ p ∈ h.ports, check_port p.1 = Except.ok () ∧
      check_tcpudp p.2 = Except.ok ()) ∧
    h.ports.Nodup := by
  unfold Helper.validB at hv
  rw [Bool.and_eq_true, Bool.and_eq_true, Bool.and_eq_true] at hv
  obtain ⟨⟨⟨hn, hf⟩, hp⟩, hnd⟩ := hv
  refine ⟨(exceptOk_unit_iff _).mp hn, ?_, ?_, of_decide_eq_true hnd⟩
  · rw [Bool.or_eq_true, Bool.or_eq_true] at hf
    rcases hf with (hf | hf) | hf
    · exact Or.inl (of_decide_eq_true hf)
    · exact Or.inr (Or.inl (of_decide_eq_true hf))
    · exact Or.inr (Or.inr (of_decide_eq_true hf))
  · intro p hp2
    have hq := List.all_eq_true.mp hp p hp2
    rw [Bool.and_eq_true] at hq
    exact ⟨(exceptOk_unit_iff _).mp hq.1, (exceptOk_unit_iff _).mp hq.2⟩

/-- The SAX events a re-read delivers for the port section of a written
document: each port pair as an indentation, an opening and closing port
element, and a newline. -/
def saxPortBlocks (ps : List (String × String)) : List SaxEvent :=
  (ps.map (fun p =>
    [SaxEvent.characters "  ",
     SaxEvent.startElement "port" [("port", p.1), ("protocol", p.2)],
     SaxEvent.endElement "port",
     SaxEvent.characters "\n"])).flatten

/-- Saxification distributes over concatenation of emission calls. -/
lemma saxify_append (a b : List XmlEvent) :
    ((a ++ b).map XmlEvent.toSax).flatten =
      (a.map XmlEvent.toSax).flatten ++ (b.map XmlEvent.toSax).flatten := by
  rw [List.map_append, List.flatten_append]

/-- Saxifying the emitted port blocks yields the port section events. -/
lemma saxify_port_blocks (ps : List (String × String)) :
    (((ps.map (fun port =>
      [XmlEvent.ignorableWhitespace "  ",
       XmlEvent.simpleElement "port" [("port", port.1), ("protocol", port.2)],
       XmlEvent.ignorableWhitespace "\n"])).flatten).map
        XmlEvent.toSax).flatten = saxPortBlocks ps := by
  induction ps with
  | nil => rfl
  | cons p rest ih =>
    simp only [List.map_cons, List.flatten_cons, saxify_append, ih]
    rfl

/-- Decomposition of the re-read event stream of a written document into
its five sections. -/
lemma parsedWriterEvents_decomp (h : Helper) :
    parsedWriterEvents h =
      [SaxEvent.startElement "helper"
        ((if h.version ≠ "" then [("version", h.version)] else []) ++
          (if h.family ≠ "" then [("family", h.family)] else [])),
       SaxEvent.characters "\n"] ++
      (if h.short ≠ "" then
        [SaxEvent.characters "  ", SaxEvent.startElement "short" [],
         SaxEvent.characters h.short, SaxEvent.endElement "short",
         SaxEvent.characters "\n"]
      else []) ++
      (if h.description ≠ "" then
        [SaxEvent.characters "  ", SaxEvent.startElement "description" [],
         SaxEvent.characters h.description,
         SaxEvent.endElement "description", SaxEvent.characters "\n"]
      else []) ++
      saxPortBlocks h.ports ++
      [SaxEvent.endElement "helper", SaxEvent.characters "\n"] := by
  unfold parsedWriterEvents helper_writer_events
  simp only [saxify_append, saxify_port_blocks]
  by_cases hs : h.short = "" <;> by_cases hd : h.description = "" <;>
    simp [hs, hd] <;> rfl

/-- Event processing splits over concatenation of event streams. -/
lemma processEvents_append (xs ys : List SaxEvent) :
    ∀ st, processEvents st (xs ++ ys) =
      match processEvents st xs with
      | Except.ok st2 => processEvents st2 ys
      | Except.error e => Except.error e := by
  induction xs with
  | nil => intro st; rfl
  | cons e rest ih =>
    intro st
    show processEvents st (e :: (rest ++ ys)) = _
    simp only [processEvents]
    cases he : handleEvent st e with
    | ok st1 => exact ih st1
    | error err => rfl

/-- Reduction of the root-element handler with no attributes. -/
lemma startElement_helper_nil (st : HandlerState) :
    helper_startElement st "helper" [] = Except.ok ⟨st.item, ""⟩ := rfl

/-- Reduction of the root-element handler on a lone version attribute. -/
lemma startElement_helper_v (st : HandlerState) (v : String) :
    helper_startElement st "helper" [("version", v)] =
      Except.ok ⟨{ st.item with version := v }, ""⟩ := rfl

/-- Reduction of the root-element handler on version and family
attributes. -/
lemma startElement_helper_vf (st : HandlerState) (v f : String) :
    helper_startElement st "helper" [("version", v), ("family", f)] =
      match Helper.check_ipv f with
      | Except.ok _ =>
        Except.ok ⟨{ st.item with version := v, family := f }, ""⟩
      | Except.error e => Except.error e := by
  unfold helper_startElement
  rw [show parser_check_element_attrs "helper"
    [("version", v), ("family", f)] = Except.ok () from rfl]
  simp [List.lookup]
  cases hc : Helper.check_ipv f <;> simp [hc]

/-- Processing the short section of a written document sets the short
field from the accumulated text. -/
lemma process_short_block (st : HandlerState) (s : String) :
    processEvents st
      [SaxEvent.characters "  ", SaxEvent.startElement "short" [],
       SaxEvent.characters s, SaxEvent.endElement "short",
       SaxEvent.characters "\n"] =
      Except.ok ⟨{ st.item with short := s }, s ++ "\n"⟩ := rfl

/-- Processing the description section of a written document sets the
description field from the accumulated text. -/
lemma process_description_block (st : HandlerState) (s : String) :
    processEvents st
      [SaxEvent.characters "  ", SaxEvent.startElement "description" [],
       SaxEvent.characters s, SaxEvent.endElement "description",
       SaxEvent.characters "\n"] =
      Except.ok ⟨{ st.item with description := s }, s ++ "\n"⟩ := rfl

/-- Processing one port section block appends the pair when new. -/
lemma process_port_block (st : HandlerState) (po pr : String)
    (hpo : check_port po = Except.ok ())
    (hpr : check_tcpudp pr = Except.ok ()) :
    processEvents st
      [SaxEvent.characters "  ",
       SaxEvent.startElement "port" [("port", po), ("protocol", pr)],
       SaxEvent.endElement "port", SaxEvent.characters "\n"] =
      Except.ok ⟨{ st.item with
        ports := addPort st.item.ports (po, pr) }, "\n"⟩ := by
  simp only [processEvents, handleEvent, helper_characters]
  rw [startElement_port_reduce ⟨st.item, st.elementText ++ "  "⟩ po pr
    hpo hpr]
  rfl

/-- Processing the whole port section folds the append-if-new operation
over the pairs, in order. -/
lemma process_port_blocks (ps : List (String × String)) :
    ∀ st : HandlerState,
    (∀ p ∈ ps, check_port p.1 = Except.ok () ∧
      check_tcpudp p.2 = Except.ok ()) →
    ∃ t, processEvents st (saxPortBlocks ps) =
      Except.ok ⟨{ st.item with
        ports := ps.foldl addPort st.item.ports }, t⟩ := by
  induction ps with
  | nil => exact fun st hv => ⟨st.elementText, rfl⟩
  | cons p rest ih =>
    intro st hv
    obtain ⟨hpo, hpr⟩ := hv p (List.mem_cons_self _ _)
    have hdec : saxPortBlocks (p :: rest) =
        [SaxEvent.characters "  ",
         SaxEvent.startElement "port" [("port", p.1), ("protocol", p.2)],
         SaxEvent.endElement "port", SaxEvent.characters "\n"] ++
        saxPortBlocks rest := rfl
    rw [hdec, processEvents_append]
    rw [process_port_block st p.1 p.2 hpo hpr]
    obtain ⟨t, hrec⟩ := ih ⟨{ st.item with
      ports := addPort st.item.ports p }, "\n"⟩
      (fun q hq => hv q (List.mem_cons_of_mem _ hq))
    exact ⟨t, hrec⟩

/-- Processing the closing events of a written document changes no record
field. -/
lemma process_trailer (st : HandlerState) :
    processEvents st
      [SaxEvent.endElement "helper", SaxEvent.characters "\n"] =
      Except.ok ⟨st.item, st.elementText ++ "\n"⟩ := rfl

/-- Chaining event processing across a concatenation. -/
lemma processEvents_append_ok (xs ys : List SaxEvent)
    (st st1 : HandlerState) (r : Except FirewallError HandlerState)
    (h1 : processEvents st xs = Except.ok st1)
    (h2 : processEvents st1 ys = r) :
    processEvents st (xs ++ ys) = r := by
  rw [processEvents_append xs ys st, h1]
  exact h2

/-- A name with the configuration suffix appended ends with it. -/
lemma endswith_append_xml (s : String) :
    endswith (s ++ ".xml") ".xml" = true := by
  unfold endswith
  rw [String.data_append]
  simp only [List.isSuffixOf_iff_suffix]
  exact ⟨s.data, rfl⟩

/-- Dropping the four suffix characters recovers the name. -/
lemma dropLast4_append_xml (s : String) :
    dropLast4 (s ++ ".xml") = s := by
  unfold dropLast4
  rw [String.data_append]
  have h4 : (".xml".data).length = 4 := rfl
  have hlen : (s.data ++ ".xml".data).length - 4 = s.data.length := by
    rw [List.length_append, h4]
    omega
  rw [hlen, List.take_left]

/-- A permitted non-empty family value validates. -/
lemma check_ipv_ok_of_valid (f : String) (hf : f = "ipv4" ∨ f = "ipv6") :
    Helper.check_ipv f = Except.ok () := by
  unfold Helper.check_ipv
  rw [if_pos hf]

/-- Processing the opened root element and the following newline. -/
lemma process_helper_open (st : HandlerState)
    (attrs : List (String × String)) (item1 : Helper)
    (hred : helper_startElement st "helper" attrs =
      Except.ok ⟨item1, ""⟩) :
    processEvents st
      [SaxEvent.startElement "helper" attrs, SaxEvent.characters "\n"] =
      Except.ok ⟨item1, "\n"⟩ := by
  simp only [processEvents, handleEvent]
  rw [hred]
  exact rfl

/-- The record state after the root element of a re-read. -/
def mergeA (i0 h : Helper) : Helper :=
  { i0 with
    version := h.version,
    family := h.family }

/-- The record state after the short section of a re-read. -/
def mergeB (i0 h : Helper) : Helper :=
  { i0 with
    version := h.version,
    family := h.family,
    short := h.short }

/-- The record state after the description section of a re-read. -/
def mergeC (i0 h : Helper) : Helper :=
  { i0 with
    version := h.version,
    family := h.family,
    short := h.short,
    description := h.description }

/-- The record state after the port section of a re-read: every content
field of the written record restored on top of the initial record. -/
def mergeD (i0 h : Helper) : Helper :=
  { i0 with
    version := h.version,
    family := h.family,
    short := h.short,
    description := h.description,
    ports := h.ports }

/-- Processing the re-read event stream of the document written for a
valid record reconstructs its five content fields on top of any initial
record whose content fields are empty. -/
lemma processEvents_writerEvents (h i0 : Helper) (t0 : String)
    (hfam : h.family = "" ∨ h.family = "ipv4" ∨ h.family = "ipv6")
    (hports : ∀ p ∈ h.ports, check_port p.1 = Except.ok () ∧
      check_tcpudp p.2 = Except.ok ())
    (hnd : h.ports.Nodup)
    (hv0 : i0.version = "") (hs0 : i0.short = "")
    (hd0 : i0.description = "") (hf0 : i0.family = "")
    (hp0 : i0.ports = []) :
    ∃ t, processEvents ⟨i0, t0⟩ (parsedWriterEvents h) =
      Except.ok ⟨mergeD i0 h, t⟩ := by
  have hfam2 : h.family ≠ "" → Helper.check_ipv h.family = Except.ok () := by
    intro hne
    rcases hfam with hf | hf | hf
    · exact absurd hf hne
    · exact check_ipv_ok_of_valid _ (Or.inl hf)
    · exact check_ipv_ok_of_valid _ (Or.inr hf)
  -- segment A: the root element and its newline
  have hA : processEvents ⟨i0, t0⟩
      [SaxEvent.startElement "helper"
        ((if h.version ≠ "" then [("version", h.version)] else []) ++
          (if h.family ≠ "" then [("family", h.family)] else [])),
       SaxEvent.characters "\n"] =
      Except.ok ⟨mergeA i0 h, "\n"⟩ := by
    by_cases hv : h.version = "" <;> by_cases hf : h.family = ""
    · have heq : mergeA i0 h = i0 := by
        unfold mergeA; cases i0; simp_all
      rw [heq]
      simp only [hv, hf, ne_eq, not_true_eq_false, if_false,
        List.nil_append]
      exact process_helper_open _ _ _ (startElement_helper_nil _)
    · have heq : mergeA i0 h = { i0 with family := h.family } := by
        unfold mergeA; cases i0; simp_all
      rw [heq]
      simp only [hv, hf, ne_eq, not_true_eq_false, if_false,
        not_false_eq_true, if_true, List.nil_append]
      refine process_helper_open _ _ _ ?_
      rw [startElement_family_reduce, hfam2 hf]
    · have heq : mergeA i0 h = { i0 with version := h.version } := by
        unfold mergeA; cases i0; simp_all
      rw [heq]
      simp only [hv, hf, ne_eq, not_true_eq_false, if_false,
        not_false_eq_true, if_true, List.append_nil]
      exact process_helper_open _ _ _ (startElement_helper_v _ _)
    · simp only [hv, hf, ne_eq, not_false_eq_true, if_true]
      refine process_helper_open _ _ _ ?_
      show helper_startElement ⟨i0, t0⟩ "helper"
        [("version", h.version), ("family", h.family)] =
        Except.ok ⟨mergeA i0 h, ""⟩
      rw [startElement_helper_vf, hfam2 hf]
      exact rfl
  -- segment B: the optional short section
  have hB : ∀ t1, ∃ t2, processEvents ⟨mergeA i0 h, t1⟩
      (if h.short ≠ "" then
        [SaxEvent.characters "  ", SaxEvent.startElement "short" [],
         SaxEvent.characters h.short, SaxEvent.endElement "short",
         SaxEvent.characters "\n"]
      else []) =
      Except.ok ⟨mergeB i0 h, t2⟩ := by
    intro t1
    by_cases hs : h.short = ""
    · have heq : mergeB i0 h = mergeA i0 h := by
        unfold mergeA mergeB; cases i0; simp_all
      rw [heq]
      simp only [hs, ne_eq, not_true_eq_false, if_false]
      exact ⟨t1, rfl⟩
    · simp only [hs, ne_eq, not_false_eq_true, if_true]
      exact ⟨h.short ++ "\n", process_short_block _ _⟩
  -- segment C: the optional description section
  have hC : ∀ t1, ∃ t2, processEvents ⟨mergeB i0 h, t1⟩
      (if h.description ≠ "" then
        [SaxEvent.characters "  ", SaxEvent.startElement "description" [],
         SaxEvent.characters h.description,
         SaxEvent.endElement "description", SaxEvent.characters "\n"]
      else []) =
      Except.ok ⟨mergeC i0 h, t2⟩ := by
    intro t1
    by_cases hd : h.description = ""
    · have heq : mergeC i0 h = mergeB i0 h := by
        unfold mergeB mergeC; cases i0; simp_all
      rw [heq]
      simp only [hd, ne_eq, not_true_eq_false, if_false]
      exact ⟨t1, rfl⟩
    · simp only [hd, ne_eq, not_false_eq_true, if_true]
      exact ⟨h.description ++ "\n", process_description_block _ _⟩
  -- segment D: the port section
  have hD : ∀ t1, ∃ t2, processEvents ⟨mergeC i0 h, t1⟩
      (saxPortBlocks h.ports) =
      Except.ok ⟨mergeD i0 h, t2⟩ := by
    intro t1
    obtain ⟨t2, hp⟩ := process_port_blocks h.ports ⟨mergeC i0 h, t1⟩ hports
    have hfold : h.ports.foldl addPort i0.ports = h.ports := by
      rw [hp0, foldl_addPort_general h.ports []]
      exact dedupFirst_of_nodup h.ports hnd
    have hp2 : processEvents ⟨mergeC i0 h, t1⟩ (saxPortBlocks h.ports) =
        Except.ok ⟨{ i0 with
          version := h.version,
          family := h.family,
          short := h.short,
          description := h.description,
          ports := h.ports.foldl addPort i0.ports }, t2⟩ := hp
    rw [hfold] at hp2
    exact ⟨t2, hp2⟩
  -- assemble the five segments
  obtain ⟨t2, h2⟩ := hB "\n"
  obtain ⟨t3, h3⟩ := hC t2
  obtain ⟨t4, h4⟩ := hD t3
  refine ⟨t4 ++ "\n", ?_⟩
  rw [parsedWriterEvents_decomp h]
  refine processEvents_append_ok _ _ _ ⟨mergeD i0 h, t4⟩ _ ?_
    (process_trailer _)
  refine processEvents_append_ok _ _ _ ⟨mergeC i0 h, t3⟩ _ ?_ h4
  refine processEvents_append_ok _ _ _ ⟨mergeB i0 h, t2⟩ _ ?_ h3
  exact processEvents_append_ok _ _ _ ⟨mergeA i0 h, "\n"⟩ _ hA h2

/-- Reduction of helper_reader when the suffix check and the name check
pass and the file parses to an event stream. -/
lemma helper_reader_events (filename path : String)
    (fs : String → ParseOutcome) (evs : List SaxEvent)
    (hsuf : endswith filename ".xml" = true)
    (hname : check_name (dropLast4 filename) = Except.ok ())
    (hfs : fs (path ++ "/" ++ filename) = ParseOutcome.events evs) :
    helper_reader filename path fs =
      match processEvents ⟨readerInitHelper filename path, ""⟩ evs with
      | Except.ok st =>
        { result := Except.ok st.item,
          opened := [path ++ "/" ++ filename] }
      | Except.error e =>
        { result := Except.error (ReadFailure.fw e),
          opened := [path ++ "/" ++ filename] } := by
  unfold helper_reader
  rw [if_neg (by simp [hsuf]), hname, hfs]

/-- C1: writing a valid record with helper_writer and reading the
produced file back with helper_reader yields a record whose version,
short, description, family and ports fields equal those of the original
record — read after write is the identity on valid records. -/
theorem read_after_write (h : Helper) (path2 : String)
    (hval : h.validB = true)
    (hfile : h.filename = h.name ++ ".xml") :
    ∃ h2, (helper_reader h.filename path2
        (fun _ => ParseOutcome.events (parsedWriterEvents h))).result =
      Except.ok h2 ∧
      h2.version = h.version ∧ h2.short = h.short ∧
      h2.description = h.description ∧ h2.family = h.family ∧
      h2.ports = h.ports := by
  obtain ⟨hn, hfam, hports, hnd⟩ := validB_parts h hval
  have hsuf : endswith h.filename ".xml" = true := by
    rw [hfile]
    exact endswith_append_xml h.name
  have hname : check_name (dropLast4 h.filename) = Except.ok () := by
    rw [hfile, dropLast4_append_xml h.name]
    exact hn
  obtain ⟨t, hproc⟩ := processEvents_writerEvents h
    (readerInitHelper h.filename path2) ""
    hfam hports hnd rfl rfl rfl rfl rfl
  refine ⟨mergeD (readerInitHelper h.filename path2) h, ?_, rfl, rfl, rfl,
    rfl, rfl⟩
  rw [helper_reader_events h.filename path2 _ (parsedWriterEvents h)
    hsuf hname rfl, hproc]

/-- The concrete record for the round-trip witness. -/
def roundTripExample : Helper :=
  { Helper.init with
    name := "myhelper",
    filename := "myhelper.xml",
    path := "/etc/firewalld/helpers",
    version := "1",
    short := "S",
    description := "D",
    family := "ipv4",
    ports := [("21", "tcp"), ("1-5", "udp")] }

/-- Witness for C1 on a concrete valid record with every field
populated. -/
theorem read_after_write_witness :
    roundTripExample.validB = true ∧
    roundTripExample.filename = roundTripExample.name ++ ".xml" ∧
    ∃ h2, (helper_reader roundTripExample.filename "/etc/firewalld/helpers"
        (fun _ => ParseOutcome.events
          (parsedWriterEvents roundTripExample))).result =
      Except.ok h2 ∧
      h2.version = roundTripExample.version ∧
      h2.short = roundTripExample.short ∧
      h2.description = roundTripExample.description ∧
      h2.family = roundTripExample.family ∧
      h2.ports = roundTripExample.ports := by
  refine ⟨by decide, by decide, ?_⟩
  exact read_after_write roundTripExample "/etc/firewalld/helpers"
    (by decide) (by decide)

end Firewalld
